import Mathlib

/-!
Verification of the MUSTARD / neo-mayo specification against the sources
`src/mustard/mustard.py`, `src/mustard/algo.py` and `src/neo_mayo/neo_mayo.py`.

The Python sources are shallowly embedded: machine floats become exact
rationals (`ℚ`) or exact reals/complexes (`ℝ`, `ℂ`) where the FFT primitives
require them; tensors become index functions or lists of rationals; code
that raises becomes `Except String`; IEEE NaN propagation in the loss tracking
is modelled by an explicit `PyVal` type whose comparisons with NaN are false,
as in IEEE 754.  Each definition is a direct translation of the cited source
lines; doc comments give the file and line numbers.
-/

/- ----------------------------------------------------------------- -/
/- Shared small helpers                                              -/
/- ----------------------------------------------------------------- -/

/-- Insertion of a rational into a sorted list (helper for `sortQ`). -/
def insertSorted (x : ℚ) : List ℚ → List ℚ
  | [] => [x]
  | y :: ys => if x ≤ y then x :: y :: ys else y :: insertSorted x ys

/-- Insertion sort on rationals (helper for `pymedian`). -/
def sortQ : List ℚ → List ℚ
  | [] => []
  | x :: xs => insertSorted x (sortQ xs)

/-- Model of `numpy.median` on a flat list: sort, then take the middle
element (odd length) or the mean of the two middle elements (even length).
`numpy` returns NaN on an empty input; this model returns `0` there, and no
theorem below evaluates the median of an empty list except harmlessly inside
`compute_rot_weight` on one-frame inputs, where both copies ignore it the
same way. -/
def pymedian (l : List ℚ) : ℚ :=
  let s := sortQ l
  let n := s.length
  if n = 0 then 0
  else if n % 2 = 1 then s.getD (n / 2) 0
  else (s.getD (n / 2 - 1) 0 + s.getD (n / 2) 0) / 2

/-- Boolean success test for `Except` values (the embedding of a Python
call that did not raise). -/
def exOk {ε α : Type} : Except ε α → Bool
  | .ok _ => true
  | .error _ => false

/- ----------------------------------------------------------------- -/
/- C1 : the angle-list / cube length guard of mustard.__init__       -/
/- ----------------------------------------------------------------- -/

/-- Embedding of the shape guard of `mustard_estimator.__init__`
(`src/mustard/mustard.py` lines 154-155):

  `if self.model.nb_frame != self.model.nb_frame :`
  `    raise("Length of angles/scales does not match the size of the science-data cube !")`

The source condition compares `self.model.nb_frame` with itself, so the
branch is taken exactly when `nb_frame_model ≠ nb_frame_model`.  The cube
frame count is carried as a parameter because the intended comparison
(per the error message) is against it, but the source never reads it in
the guard.  `src/neo_mayo/neo_mayo.py` lines 129-131 contain no length
check at all. -/
def mustard_init_shape_guard (nb_frame_cube nb_frame_model : ℕ) : Except String Unit :=
  if nb_frame_model ≠ nb_frame_model then
    Except.error "Length of angles/scales does not match the size of the science-data cube"
  else Except.ok ()

/-- Claim C1: the spec says construction "must fail with a `ShapeMismatch` condition
if the client-supplied angle list length disagrees with the cube's frame
count".  The guard in the source compares `self.model.nb_frame` with itself,
so it never fires: for every cube frame count and every model frame count
(including mismatched ones) the constructor's check passes. -/
theorem mustard_init_shape_guard_never_fires (nb_frame_cube nb_frame_model : ℕ) :
    mustard_init_shape_guard nb_frame_cube nb_frame_model = Except.ok () := by
  simp [mustard_init_shape_guard]

/- ----------------------------------------------------------------- -/
/- C6 : configR1 with an unknown mode string                         -/
/- ----------------------------------------------------------------- -/

/-- The four smooth-penalty shapes selectable in `configR1`
(`src/mustard/mustard.py` lines 208-228). -/
inductive SmoothKind where
  | smoothWithEdges
  | smooth
  | peakPreservation
  | l1
deriving DecidableEq, Repr

/-- Result state of `configR1`: the selected smooth penalty together with
the `p_L` and `smoothL` settings that the tail of the method always stores
(`self.p_L = p_L` and the rebinding of `self.regul`). -/
structure R1Config where
  smooth : SmoothKind
  p_L : ℚ
  smoothL : Bool
deriving DecidableEq, Repr

/-- Embedding of `mustard_estimator.configR1` (`src/mustard/mustard.py`
lines 208-228).  The method is an `if/elif` chain over the four known mode
strings with no `else` clause and no `raise` statement: an unknown mode
leaves `self.smooth` at its previous value (`prev`, set to `smooth` by
`__init__`) and the method returns normally after storing `p_L` and
rebuilding `self.regul`. -/
def configR1 (mode : String) (smoothL : Bool) (p_L : ℚ) (prev : SmoothKind) :
    Except String R1Config :=
  let smooth :=
    if mode = "smooth_with_edges" then SmoothKind.smoothWithEdges
    else if mode = "smooth" then SmoothKind.smooth
    else if mode = "peak_preservation" then SmoothKind.peakPreservation
    else if mode = "l1" then SmoothKind.l1
    else prev
  Except.ok ⟨smooth, p_L, smoothL⟩

/-- Counterexample to C6 as stated: calling `configR1` with the mode string
"anything", which is outside the enumerated set, raises no error — the call
returns normally (with the previous smooth penalty retained). -/
theorem configR1_unknown_mode_cex :
    exOk (configR1 "anything" true 1 SmoothKind.smooth) = true := by
  decide

/-- Claim C6 (amended): calling `configR1` with a mode string outside
set of strings "smooth_with_edges", "smooth", "peak_preservation", "l1"
raises no error at configuration time; the previously configured smooth
penalty is silently retained while `p_L` and `smoothL` are still stored.
(Configuration-time validation of enumerated options exists in `configR2`
and in the pupil handling of `__init__`, but not in `configR1`.) -/
theorem configR1_unknown_mode_keeps_previous (mode : String) (smoothL : Bool)
    (p_L : ℚ) (prev : SmoothKind)
    (h : mode ∉ ["smooth_with_edges", "smooth", "peak_preservation", "l1"]) :
    configR1 mode smoothL p_L prev = Except.ok ⟨prev, p_L, smoothL⟩ := by
  simp only [List.mem_cons, List.mem_singleton, not_or] at h
  obtain ⟨h1, h2, h3, h4⟩ := h
  simp [configR1, h1, h2, h3, h4]

/-- Witness for the amended C6 theorem at the concrete invalid mode
string "bogus". -/
theorem configR1_unknown_mode_keeps_previous_witness :
    ("bogus" ∉ ["smooth_with_edges", "smooth", "peak_preservation", "l1"]) ∧
      configR1 "bogus" false 3 SmoothKind.l1 = Except.ok ⟨SmoothKind.l1, 3, false⟩ :=
  ⟨by decide, configR1_unknown_mode_keeps_previous "bogus" false 3 SmoothKind.l1 (by decide)⟩

/- ----------------------------------------------------------------- -/
/- C4 : configR2 with mode "dist", penaliz "L"                       -/
/- ----------------------------------------------------------------- -/

/-- Model of `str.capitalize()` as used on the `penaliz` argument of
`configR2`: upper-case the first character, lower-case the rest. -/
def pycapitalize (s : String) : String :=
  match s.data with
  | [] => ""
  | c :: cs => String.mk (c.toUpper :: cs.map Char.toLower)

/-- Pointwise product of two frames flattened to lists of pixels. -/
def lmul (a b : List ℚ) : List ℚ := List.zipWith (· * ·) a b

/-- Pointwise difference of two frames flattened to lists of pixels. -/
def lsub (a b : List ℚ) : List ℚ := List.zipWith (· - ·) a b

/-- Pointwise square of a frame flattened to a list of pixels. -/
def lsq (a : List ℚ) : List ℚ := a.map (fun x => x * x)

/-- Embedding of the `regul2` dispatch of `mustard_estimator.configR2`
(`src/mustard/mustard.py` lines 230-311).  A frame is a flat list of
pixels; the returned function takes `rM` (the captured `self.coro`), then
`X`, `L`, `M` in the order of the Python lambda, and `tsum` is the list sum.
The `Msk` tensor-type/shape validation and the FITS save are omitted (they
do not affect which function is configured).  `Except.ok none` models the
source paths that raise nothing but also leave `self.regul2` unchanged
(no branch of the dispatch matched). -/
def configR2_regul2 (mode0 penaliz0 : String) (invert : Bool) (p_w : ℚ) :
    Except String (Option (List ℚ → List ℚ → List ℚ → List ℚ → ℚ)) :=
  let mode := if mode0 = "pdi" then "mask" else mode0
  let penaliz := pycapitalize penaliz0
  let sign : ℚ := if invert then -1 else 1
  if penaliz ∉ ["X", "L", "Both", "B", "Tb", "Trueboth"] then
    Except.error "Unknown value of penaliz. Possible values are X, L, B, TB"
  else if mode = "dist" then
    if penaliz = "X" then
      Except.ok (some (fun rM X _L M => (lmul rM (lsq (lsub M X))).sum))
    else if penaliz = "L" then
      Except.ok (some (fun rM X _L M => (lmul rM (lsq (lsub M X))).sum))
    else if penaliz = "Both" ∨ penaliz = "B" then
      Except.ok (some (fun rM X L M =>
        sign * ((lmul rM (lsq (lsub M X))).sum - (lmul rM (lsq (lsub M L))).sum)))
    else Except.ok none
  else if mode = "mask" then
    if penaliz = "X" then
      Except.ok (some (fun rM X _L M => (lmul rM (lsq (lmul M X))).sum))
    else if penaliz = "L" then
      Except.ok (some (fun rM _X L M => (lmul rM (lsq (lmul (lsub (List.replicate M.length 1) M) L))).sum))
    else if penaliz = "Both" ∨ penaliz = "B" then
      Except.ok (some (fun rM X L M =>
        (lmul rM (lsq (lmul M X))).sum +
          M.sum ^ 2 / (lsub (List.replicate M.length 1) M).sum ^ 2 *
            (lmul rM (lsq (lmul (lsub (List.replicate M.length 1) M) L))).sum))
    else if penaliz = "Trueboth" ∨ penaliz = "TB" then
      Except.ok (some (fun rM X L M =>
        (lsq (lmul M X)).sum + p_w * (lsq (lmul rM L)).sum))
    else Except.ok none
  else if mode = "l1" then
    if penaliz = "X" then
      Except.ok (some (fun _rM X _L _M => (lsq X).sum))
    else if penaliz = "L" then
      Except.ok (some (fun _rM _X L _M => (lsq L).sum))
    else if penaliz = "Both" ∨ penaliz = "B" then
      Except.ok (some (fun _rM X L _M => sign * ((lsq X).sum - (lsq L).sum)))
    else if penaliz = "Trueboth" ∨ penaliz = "TB" then
      Except.ok (some (fun _rM X L _M => sign * ((lsq X).sum + p_w * (lsq L).sum)))
    else Except.ok none
  else
    Except.error "Unknown value of mode. Possible values are mask, dist, l1"

/-- The second regularizer configured by `configR2(mode="dist",
penaliz="L", invert=False)`, extracted from the dispatch. -/
def mustard_regul2_dist_L : List ℚ → List ℚ → List ℚ → List ℚ → ℚ :=
  match configR2_regul2 "dist" "L" false 2 with
  | .ok (some f) => f
  | _ => fun _ _ _ _ => 0

/-- Formula stated by the `configR2` docstring for mode "dist" and
penaliz "L" (`src/mustard/mustard.py` line 254): `R = dist(M-L)`, the
masked squared distance between the prior mask and `L`. -/
def regul2_dist_L_doc (rM M L : List ℚ) : ℚ := (lmul rM (lsq (lsub M L))).sum

/-- Claim C4: evaluation of the configured dist/L regularizer at
`rM = [1]`, `X = [1]`, `L = [0]`, `M = [0]`.  The source lambda for
penaliz "L" is `tsum(rM * (M - X) ** 2)` — it reads `X`, not `L` — so the
configured value is `1`, while the documented formula `dist(M-L)` gives `0`
at the same maps.  In particular the configured regularizer depends on `X`
and not on `L`, the opposite of the claim. -/
theorem mustard_regul2_dist_L_uses_X :
    mustard_regul2_dist_L [1] [1] [0] [0] = 1 ∧ regul2_dist_L_doc [1] [0] [0] = 0 := by
  have h : mustard_regul2_dist_L [1] [1] [0] [0] = (lmul [1] (lsq (lsub [0] [1]))).sum := rfl
  constructor
  · rw [h]; norm_num [lmul, lsq, lsub]
  · norm_num [regul2_dist_L_doc, lmul, lsq, lsub]

/- ----------------------------------------------------------------- -/
/- C5 : the adaptive-weight fallback at the start of estimate        -/
/- ----------------------------------------------------------------- -/

/-- Result of the auto-hyperparameter block: the two regularization
weights and the (possibly updated) activation iteration. -/
structure AutoW where
  w_r : ℚ
  w_r2 : ℚ
  kactiv : ℕ
deriving DecidableEq, Repr

/-- Embedding of the auto-hyperparameter block of
`mustard_estimator.estimate` (`src/mustard/mustard.py` lines 551-560):

  `if w_pcent and Ractiv :`
  `    reg1 = ...; w_r  = w_rp[0] * loss0 / reg1 if w_rp[0] and reg1 > 0 else 0`
  `    reg2 = ...; w_r2 = w_rp[1] * loss0 / reg2 if w_rp[1] and reg2 > 0 else 0`
  `    if (w_rp[0] and reg1 < 0) or (w_rp[1] and reg2 < 0): kactiv = 2`

Python truthiness of the float `w_rp[i]` is `≠ 0`.  `reg1`/`reg2` are the
raw values of `regul(X0, L0 + halo0)` and `regul2(X0, L0, mask)`, passed
here as parameters; `w_r0`, `w_r20`, `kactiv` are the values the block
would leave unchanged when `w_pcent and Ractiv` is falsy. -/
def estimate_auto_weights (w_pcent Ractiv : Bool) (w_rp1 w_rp2 loss0 reg1 reg2 : ℚ)
    (w_r0 w_r20 : ℚ) (kactiv : ℕ) : AutoW :=
  if w_pcent ∧ Ractiv then
    let w_r := if w_rp1 ≠ 0 ∧ 0 < reg1 then w_rp1 * loss0 / reg1 else 0
    let w_r2 := if w_rp2 ≠ 0 ∧ 0 < reg2 then w_rp2 * loss0 / reg2 else 0
    let kactiv' := if (w_rp1 ≠ 0 ∧ reg1 < 0) ∨ (w_rp2 ≠ 0 ∧ reg2 < 0) then 2 else kactiv
    ⟨w_r, w_r2, kactiv'⟩
  else ⟨w_r0, w_r20, kactiv⟩

/-- Counterexample to C5 as stated: with percentage weights enabled
(`w_pcent` true, `Ractiv` true, configured percentage `w_rp1 = 3/100 ≠ 0`)
and the raw first regularization value exactly `0` (which is `≤ 0`), the
engine does not set `kactiv` to `2`: the fallback condition in the source
is the strict `reg1 < 0`. -/
theorem estimate_auto_weights_zero_cex :
    ¬ (estimate_auto_weights true true (3/100) 0 5 0 0 (3/100) (3/100) 0).kactiv = 2 := by
  norm_num [estimate_auto_weights]

/-- Claim C5 (amended): the fallback that forces activation at iteration 2 fires
exactly on a strictly negative raw regularization value (with a nonzero
configured percentage): if `reg1 < 0` then `kactiv` is set to `2`; if
`reg1 = 0` the computed weight `w_r` is `0` and (when the second raw value
is nonnegative) `kactiv` is left unchanged rather than forced to `2`. -/
theorem estimate_auto_weights_fallback_strict (w_rp1 w_rp2 loss0 reg1 reg2 w_r0 w_r20 : ℚ)
    (kactiv : ℕ) (hp1 : w_rp1 ≠ 0) (hr2 : 0 ≤ reg2) :
    (reg1 < 0 →
      (estimate_auto_weights true true w_rp1 w_rp2 loss0 reg1 reg2 w_r0 w_r20 kactiv).kactiv = 2) ∧
    (reg1 = 0 →
      (estimate_auto_weights true true w_rp1 w_rp2 loss0 reg1 reg2 w_r0 w_r20 kactiv).w_r = 0 ∧
      (estimate_auto_weights true true w_rp1 w_rp2 loss0 reg1 reg2 w_r0 w_r20 kactiv).kactiv
        = kactiv) := by
  constructor
  · intro hneg
    simp [estimate_auto_weights, hp1, hneg]
  · intro hzero
    subst hzero
    constructor
    · simp [estimate_auto_weights]
    · have h2 : ¬ reg2 < 0 := not_lt.mpr hr2
      simp [estimate_auto_weights, h2]

/-- Witness for the amended C5 theorem: at `w_rp1 = 1 ≠ 0`, `reg1 = -1 < 0`
the fallback fires and sets `kactiv = 2`. -/
theorem estimate_auto_weights_fallback_strict_witness :
    (estimate_auto_weights true true 1 0 10 (-1) 0 0 0 0).kactiv = 2 :=
  (estimate_auto_weights_fallback_strict 1 0 10 (-1) 0 0 0 0
    (by norm_num) (by norm_num)).1 (by norm_num)

/- ----------------------------------------------------------------- -/
/- C8 : kernel-size validation of the convolution helpers            -/
/- ----------------------------------------------------------------- -/

/-- Entry lookup in a kernel given as a list of rows. -/
def kget (k : List (List ℚ)) (i j : ℕ) : ℚ := (k.getD i []).getD j 0

/-- The 3x3 Laplacian kernel of `laplacian_tensor_conv`
(`src/mustard/algo.py` lines 118-120). -/
def laplacianKernel3 : List (List ℚ) :=
  [[-1, -1, -1], [-1, 8, -1], [-1, -1, -1]]

/-- The 5x5 Laplacian kernel (`src/mustard/algo.py` lines 121-125). -/
def laplacianKernel5 : List (List ℚ) :=
  [[-4, -1, 0, -1, -4], [-1, 2, 3, 2, -1], [0, 3, 4, 3, 0],
   [-1, 2, 3, 2, -1], [-4, -1, 0, -1, -4]]

/-- The 7x7 Laplacian kernel (`src/mustard/algo.py` lines 126-132). -/
def laplacianKernel7 : List (List ℚ) :=
  [[-10, -5, -2, -1, -2, -5, -10], [-5, 0, 3, 4, 3, 0, -5],
   [-2, 3, 6, 7, 6, 3, -2], [-1, 4, 7, 8, 7, 4, -1],
   [-2, 3, 6, 7, 6, 3, -2], [-5, 0, 3, 4, 3, 0, -5],
   [-10, -5, -2, -1, -2, -5, -10]]

/-- The 3x3 Gaussian kernel of `gaussian_tensor_conv`
(`src/mustard/algo.py` lines 201-204). -/
def gaussianKernel3 : List (List ℚ) :=
  [[1, 2, 1], [2, 4, 2], [1, 2, 1]]

/-- The 5x5 Gaussian kernel (`src/mustard/algo.py` lines 205-210). -/
def gaussianKernel5 : List (List ℚ) :=
  [[1, 4, 6, 4, 1], [4, 18, 30, 18, 4], [6, 30, 48, 30, 6],
   [4, 18, 30, 18, 4], [1, 4, 6, 4, 1]]

/-- Zero-padded pixel access for an `r × c` image given as an index
function (the padding of `conv2d(..., padding='same')`). -/
def padGet (r c : ℕ) (t : ℕ → ℕ → ℚ) (i j : ℤ) : ℚ :=
  if 0 ≤ i ∧ i < (r : ℤ) ∧ 0 ≤ j ∧ j < (c : ℤ) then t i.toNat j.toNat else 0

/-- Model of `torch.nn.functional.conv2d` with `padding='same'` for an odd
`K × K` kernel on an `r × c` image: cross-correlation with zero padding of
`K/2` on each side. -/
def conv2dSame (r c K : ℕ) (ker : List (List ℚ)) (t : ℕ → ℕ → ℚ) : ℕ → ℕ → ℚ :=
  fun i j =>
    ∑ a ∈ Finset.range K, ∑ b ∈ Finset.range K,
      kget ker a b * padGet r c t ((i : ℤ) + a - (K / 2 : ℕ)) ((j : ℤ) + b - (K / 2 : ℕ))

/-- Embedding of `laplacian_tensor_conv` (`src/mustard/algo.py` lines
101-144): select the kernel for sizes 3, 5, 7, raising `ValueError` for any
other size, then convolve. -/
def laplacian_tensor_conv (r c : ℕ) (t : ℕ → ℕ → ℚ) (kernel_size : ℕ) :
    Except String (ℕ → ℕ → ℚ) :=
  if kernel_size = 3 then Except.ok (conv2dSame r c 3 laplacianKernel3 t)
  else if kernel_size = 5 then Except.ok (conv2dSame r c 5 laplacianKernel5 t)
  else if kernel_size = 7 then Except.ok (conv2dSame r c 7 laplacianKernel7 t)
  else Except.error "Kernel size must be either 3, 5 or 7."

/-- Embedding of `gaussian_tensor_conv` (`src/mustard/algo.py` lines
183-216): select the kernel for sizes 3, 5, raising `ValueError` for any
other size, then convolve. -/
def gaussian_tensor_conv (r c : ℕ) (t : ℕ → ℕ → ℚ) (k_size : ℕ) :
    Except String (ℕ → ℕ → ℚ) :=
  if k_size = 3 then Except.ok (conv2dSame r c 3 gaussianKernel3 t)
  else if k_size = 5 then Except.ok (conv2dSame r c 5 gaussianKernel5 t)
  else Except.error "Kernel size can be 3 or 5"

/-- Claim C8: `laplacian_tensor_conv` succeeds (returns a filtered image without
raising) exactly when its `kernel_size` argument is 3, 5 or 7, and
`gaussian_tensor_conv` succeeds exactly when its `k_size` argument is 3
or 5; every other size raises. -/
theorem kernel_size_validation (r c K : ℕ) (t : ℕ → ℕ → ℚ) :
    (exOk (laplacian_tensor_conv r c t K) = true ↔ (K = 3 ∨ K = 5 ∨ K = 7)) ∧
    (exOk (gaussian_tensor_conv r c t K) = true ↔ (K = 3 ∨ K = 5)) := by
  constructor
  · unfold laplacian_tensor_conv
    split_ifs with h1 h2 h3 <;> simp_all [exOk]
  · unfold gaussian_tensor_conv
    split_ifs with h1 h2 <;> simp_all [exOk]

/- ----------------------------------------------------------------- -/
/- C10 : the two copies of compute_rot_weight                        -/
/- ----------------------------------------------------------------- -/

/-- Absolute consecutive angle differences, the embedding of
`abs(angs[:-1] - angs[1:])` in `compute_rot_weight`. -/
def absDiffs (angs : List ℚ) : List ℚ :=
  List.zipWith (fun a b => |a - b|) angs angs.tail

/-- The forward neighbour-counting `while` loop of `compute_rot_weight`
(`src/mustard/mustard.py` lines 1331-1333, identical to
`src/neo_mayo/neo_mayo.py` lines 573-575):

  `while detla_ang < max_rot and tmp_id < nb_frm - 1:`
  `    tmp_id += 1; nb_neighbours += 1`
  `    detla_ang += abs(angs[tmp_id] - angs[id_ang])`

`fuel` bounds the number of iterations; the loop advances `tmp_id` towards
`angs.length - 1`, so `fuel = angs.length` always suffices and the result
is then the exact exit value of `nb_neighbours`. -/
def walkAfter (angs : List ℚ) (a0 maxRot : ℚ) : ℕ → ℕ → ℕ → ℚ → ℕ
  | 0, _, nb, _ => nb
  | fuel + 1, tmp, nb, delta =>
    if delta < maxRot ∧ tmp < angs.length - 1 then
      walkAfter angs a0 maxRot fuel (tmp + 1) (nb + 1) (delta + |angs.getD (tmp + 1) 0 - a0|)
    else nb

/-- The backward neighbour-counting `while` loop of `compute_rot_weight`
(`src/mustard/mustard.py` lines 1338-1340, identical in the neo_mayo
copy): same as `walkAfter` but walking towards index 0. -/
def walkBefore (angs : List ℚ) (a0 maxRot : ℚ) : ℕ → ℕ → ℕ → ℚ → ℕ
  | 0, _, nb, _ => nb
  | fuel + 1, tmp, nb, delta =>
    if delta < maxRot ∧ 0 < tmp then
      walkBefore angs a0 maxRot fuel (tmp - 1) (nb + 1) (delta + |angs.getD (tmp - 1) 0 - a0|)
    else nb

/-- The per-frame weight of `compute_rot_weight` (loop body, lines
1323-1343 of `src/mustard/mustard.py`, identical to lines 565-585 of
`src/neo_mayo/neo_mayo.py`). -/
def rotWeightAt (angs : List ℚ) (maxRot : ℚ) (i : ℕ) : ℚ :=
  let a0 := angs.getD i 0
  let nbA := walkAfter angs a0 maxRot angs.length i 0 0
  let w1 := if 1 < nbA then (1 + |a0 - angs.getD (i + 1) 0|) / nbA else 1
  let nbB := walkBefore angs a0 maxRot angs.length i 0 0
  let w2 := if 1 < nbB then (1 + |a0 - angs.getD (i - 1) 0|) / nbB else 1
  (w2 + w1) / 2

/-- Embedding of `compute_rot_weight` from `src/mustard/mustard.py`
(lines 1315-1345): the cap `max_rot = min(median(|Δ angles|), 1)` followed
by the per-frame weight loop, returning the raw weight array. -/
def mustard_compute_rot_weight (angs : List ℚ) : List ℚ :=
  let maxRot0 := pymedian (absDiffs angs)
  let maxRot := if 1 < maxRot0 then 1 else maxRot0
  (List.range angs.length).map (rotWeightAt angs maxRot)

/-- Embedding of `compute_rot_weight` from `src/neo_mayo/neo_mayo.py`
(lines 557-587).  Lines 557-585 are textually identical to lines
1315-1343 of the mustard copy (embedded as `mustard_compute_rot_weight`);
the only difference is the final line, which rescales the array by
`nb_frm / sum(ang_weight)`. -/
def neo_mayo_compute_rot_weight (angs : List ℚ) : List ℚ :=
  let w := mustard_compute_rot_weight angs
  w.map (fun x => x * ((angs.length : ℚ) / w.sum))

/-- Counterexample to C10 as stated: on the concrete angle list
`[0, 0, 1]` the two copies disagree.  The mustard copy returns
`[3/4, 1, 1]`; the neo_mayo copy rescales by `3 / (11/4)` and returns
`[9/11, 12/11, 12/11]`. -/
theorem compute_rot_weight_copies_differ :
    neo_mayo_compute_rot_weight [0, 0, 1] ≠ mustard_compute_rot_weight [0, 0, 1] := by
  have hm : mustard_compute_rot_weight [0, 0, 1] = [3/4, 1, 1] := by
    norm_num [mustard_compute_rot_weight, rotWeightAt, walkAfter, walkBefore,
      pymedian, absDiffs, sortQ, insertSorted, List.range_succ]
  have hn : neo_mayo_compute_rot_weight [0, 0, 1] = [9/11, 12/11, 12/11] := by
    rw [neo_mayo_compute_rot_weight, hm]
    norm_num
  rw [hn, hm]
  intro h
  exact absurd (List.head_eq_of_cons_eq h) (by norm_num)

/-- Claim C10 (amended): the two copies of `compute_rot_weight` share the whole
per-frame weight computation and differ only in the final rescaling of the
neo_mayo copy by `nb_frames / sum(weights)`; consequently they return the
same array exactly on those angle lists whose raw weights already sum to
the number of frames. -/
theorem compute_rot_weight_agree_of_sum_eq (angs : List ℚ)
    (h : (mustard_compute_rot_weight angs).sum = (angs.length : ℚ)) :
    neo_mayo_compute_rot_weight angs = mustard_compute_rot_weight angs := by
  by_cases hnil : angs = []
  · subst hnil
    rfl
  · have hlen0 : angs.length ≠ 0 := fun h0 => hnil (List.length_eq_zero.mp h0)
    have hlen : ((angs.length : ℚ)) ≠ 0 := Nat.cast_ne_zero.mpr hlen0
    simp only [neo_mayo_compute_rot_weight, h, div_self hlen, mul_one]
    exact List.map_id _

/-- Witness for the amended C10 theorem: on `[0, 10, 20]` the raw mustard
weights are `[1, 1, 1]`, which sum to the frame count 3, and the two
copies coincide there. -/
theorem compute_rot_weight_agree_witness :
    (mustard_compute_rot_weight [0, 10, 20]).sum = (([0, 10, 20] : List ℚ).length : ℚ) ∧
      neo_mayo_compute_rot_weight [0, 10, 20] = mustard_compute_rot_weight [0, 10, 20] := by
  have hs : (mustard_compute_rot_weight [0, 10, 20]).sum = (([0, 10, 20] : List ℚ).length : ℚ) := by
    norm_num [mustard_compute_rot_weight, rotWeightAt, walkAfter, walkBefore,
      pymedian, absDiffs, sortQ, insertSorted, List.range_succ]
  exact ⟨hs, compute_rot_weight_agree_of_sum_eq [0, 10, 20] hs⟩

/- ----------------------------------------------------------------- -/
/- C3 : mutation of the science cube inside estimate                 -/
/- ----------------------------------------------------------------- -/

/-- The in-place median subtraction applied to each frame when
`med_sub=True` (`src/mustard/mustard.py` lines 455-458):

  `meds = np.median(self.coro * self.science_data, (1, 2))`
  `self.science_data[frame] = (self.science_data[frame] - meds[frame]).clip(0)`

A frame is a flat list of pixels and `coro` the equally flattened
coronagraph mask. -/
def med_sub_frame (coro frame : List ℚ) : List ℚ :=
  let m := pymedian (lmul coro frame)
  frame.map (fun x => max (x - m) 0)

/-- Pointwise minimum over a stack of frames, the embedding of
`np.min(cube, 0)`. -/
def pointwiseMinFrames : List (List ℚ) → List ℚ
  | [] => []
  | f :: fs => fs.foldl (List.zipWith min) f

/-- Model of `np.linspace a b n`: `n` evenly spaced values from `a` to `b`
inclusive. -/
def linspaceQ (a b : ℚ) (n : ℕ) : List ℚ :=
  (List.range n).map (fun i => a + (b - a) * i / ((n : ℚ) - 1))

/-- Embedding of `mustard_estimator.decompose` (`src/mustard/mustard.py`
lines 839-846).  `derot` is the external `vip_hci.preproc.cube_derotate`
collaborator reduced to a single-frame operation (frame, angle) ↦ rotated
frame; it is a parameter of the model since it lives outside this
repository.  The method replaces `self.science_data` by
`science_data - speckles + stellar_halo` (and keeps the original in
`science_data_ori`, which does not undo the rebinding). -/
def decompose (derot : List ℚ → ℚ → List ℚ) (rotAngles : List ℚ)
    (cube : List (List ℚ)) : List (List ℚ) :=
  let speckles := pointwiseMinFrames cube
  let ambiguities := pointwiseMinFrames (rotAngles.map (fun a => derot speckles a))
  let stellar_halo := pointwiseMinFrames ((linspaceQ 0 360 50).map (fun a => derot ambiguities a))
  cube.map (fun f => List.zipWith (· + ·) (List.zipWith (· - ·) f speckles) stellar_halo)

/-- The value of `self.science_data` after the setup section of
`mustard_estimator.estimate` (`src/mustard/mustard.py` lines 455-460):
the `med_sub` in-place median subtraction followed by the `min_sub` call
to `decompose`.  All later statements of `estimate` only read
`self.science_data`. -/
def estimate_science_data_after (med_sub min_sub : Bool)
    (derot : List ℚ → ℚ → List ℚ) (rotAngles coro : List ℚ)
    (cube : List (List ℚ)) : List (List ℚ) :=
  let cube1 := if med_sub then cube.map (med_sub_frame coro) else cube
  if min_sub then decompose derot rotAngles cube1 else cube1

/-- Counterexample to C3 as stated: a run of `estimate` with the option
setting `med_sub=True` (and `min_sub=False`) on the one-frame, one-pixel
cube `[[4]]` with an all-pass mask rewrites the stored cube to `[[0]]`:
the frame's median (4) is subtracted and the result clipped at zero, so
the science data does not compare equal before and after the call. -/
theorem estimate_science_data_mutated_cex :
    estimate_science_data_after true false (fun f _ => f) [0] [1] [[4]] ≠ [[4]] := by
  have h : estimate_science_data_after true false (fun f _ => f) [0] [1] [[4]] = [[0]] := by
    norm_num [estimate_science_data_after, med_sub_frame, pymedian, lmul, sortQ, insertSorted]
  rw [h]
  intro hc
  have := List.head_eq_of_cons_eq hc
  simp at this

/-- Claim C3 (amended): `estimate` rewrites the stored science cube when
`med_sub` is set (per-frame median subtraction clipped at zero, in place)
or when `min_sub` is set (`decompose` replaces the cube by
`cube - speckles + stellar_halo`); when both flags are disabled the cube
stored at setup is unchanged by the call, for every derotation
collaborator, angle list, mask and cube. -/
theorem estimate_science_data_preserved_no_subs (derot : List ℚ → ℚ → List ℚ)
    (rotAngles coro : List ℚ) (cube : List (List ℚ)) :
    estimate_science_data_after false false derot rotAngles coro cube = cube := rfl

/- ----------------------------------------------------------------- -/
/- C2 : divergence checkpointing in the minimization loop            -/
/- ----------------------------------------------------------------- -/

/-- A Python float that is either NaN or an exact value.  Comparisons
with NaN are false, as in IEEE 754 (`torch` semantics of `loss > x` and
`torch.isnan`). -/
inductive PyVal where
  | nan : PyVal
  | num : ℚ → PyVal
deriving DecidableEq, Repr

instance : Inhabited PyVal := ⟨PyVal.num 0⟩

/-- Strict greater-than on `PyVal`; any comparison involving NaN is
false. -/
def PyVal.gt : PyVal → PyVal → Bool
  | .num a, .num b => decide (b < a)
  | _, _ => false

/-- NaN test on `PyVal` (the embedding of `torch.isnan`). -/
def PyVal.isnanB : PyVal → Bool
  | .nan => true
  | _ => false

/-- State of the minimization loop of `mustard_estimator.estimate`
(`src/mustard/mustard.py` lines 701-788) restricted to the variables that
feed the divergence checkpoint and the returned estimate.  The LBFGS
optimizer and the loss/gradient tensors are external (`torch`); they are
abstracted by oracles `lossF`/`gradF` indexed by the number of
`optimizer.step(closure)` calls made so far, and an iterate is identified
with that step count (each step mutates `Lk, Xk` in place, so the iterate
is a function of how many steps ran).  Fields:

* `s` — number of optimizer steps executed; the current raw iterate.
* `kFinal` — the Python loop variable `k` at exit (its last assigned value).
* `loss` — the current value of the nonlocal `loss` variable.
* `lossEvo` — `loss_evo`, most recent entry first (`head` is `loss_evo[-1]`).
* `lastIter` — the iterate deep-copied into `self.last_iter`.
* `finalEstim` — `self.final_estim` (`none` is Python `None`).
* `Ractiv`, `mink`, `kactiv` — as in the source (`kactiv = 0` is falsy).
* `ended` — a `break` has executed. -/
structure EngSt where
  s : ℕ
  kFinal : ℕ
  loss : PyVal
  lossEvo : List PyVal
  lastIter : ℕ
  finalEstim : Option ℕ
  Ractiv : Bool
  mink : ℕ
  kactiv : ℕ
  ended : Bool
deriving DecidableEq, Repr

/-- One iteration `k` of the minimization loop of
`mustard_estimator.estimate` (`src/mustard/mustard.py` lines 716-766).
In source order: the activation branch at `k == kactiv` (lines 733-736,
which runs `activation()` — one optimizer step in its AJUSTED phase —
and `continue`s), the deactivation branch (line 739), the optimizer step
(line 742), the divergence snapshot (lines 743-744: `final_estim` is set
to `last_iter` when `k > 1` and the new loss is NaN or, with `kactiv`
truthy and `k > kactiv`, exceeds `loss_evo[-1]`), the `loss_evo` append
and `last_iter` copy (lines 747-748), and the gtol/NaN break logic
(lines 753-764, where a first convergence before activation sets
`kactiv = k` and calls `activation()` instead of breaking).  The disabled
`enable_adj` block (lines 719-730) is omitted. -/
def engStep (lossF : ℕ → PyVal) (gradF : ℕ → ℚ) (kdactiv : ℕ) (gtol : ℚ)
    (k : ℕ) (st : EngSt) : EngSt :=
  if st.ended then st else
  let st1 := { st with kFinal := k }
  if st1.kactiv ≠ 0 ∧ k = st1.kactiv then
    { st1 with Ractiv := true, mink := k + 2, s := st1.s + 1, loss := lossF (st1.s + 1) }
  else
    let st2 := if kdactiv ≠ 0 ∧ k = kdactiv then { st1 with Ractiv := false } else st1
    let s' := st2.s + 1
    let l' := lossF s'
    let fe :=
      if 1 < k ∧ (l'.isnanB = true ∨
          (st2.kactiv ≠ 0 ∧ st2.kactiv < k ∧ PyVal.gt l' st2.lossEvo.headI = true)) then
        some st2.lastIter
      else st2.finalEstim
    let evo := l' :: st2.lossEvo
    if st2.mink < k ∧ gradF s' < gtol then
      if st2.Ractiv = false ∧ st2.kactiv ≠ 0 then
        { st2 with s := s' + 1, loss := lossF (s' + 1), lossEvo := evo, lastIter := s',
                   finalEstim := fe, Ractiv := true, mink := k + 2, kactiv := k }
      else
        { st2 with s := s', loss := l', lossEvo := evo, lastIter := s',
                   finalEstim := fe, ended := true }
    else if l'.isnanB = true then
      { st2 with s := s', loss := l', lossEvo := evo, lastIter := s',
                 finalEstim := fe, ended := true }
    else
      { st2 with s := s', loss := l', lossEvo := evo, lastIter := s',
                 finalEstim := fe }

/-- The full loop of `mustard_estimator.estimate`: the pre-loop state
(lines 525-708: `k = 0`, initial loss `lossF 0` appended to `loss_evo`,
`last_iter` holding the initial iterate, `final_estim = None` from
`__init__`, `Ractiv = 0 if kactiv else 1`, `mink = 2`) followed by the
iterations `k = 1 .. maxiter`. -/
def runEngineState (lossF : ℕ → PyVal) (gradF : ℕ → ℚ)
    (kactiv kdactiv maxiter : ℕ) (gtol : ℚ) : EngSt :=
  let init : EngSt :=
    { s := 0, kFinal := 0, loss := lossF 0, lossEvo := [lossF 0], lastIter := 0,
      finalEstim := none, Ractiv := (kactiv = 0), mink := 2, kactiv := kactiv,
      ended := false }
  (List.range maxiter).foldl (fun st i => engStep lossF gradF kdactiv gtol (i + 1) st) init

/-- The iterate whose `(L, X)` the run returns
(`src/mustard/mustard.py` lines 784-788):

  `if k > 1 and (torch.isnan(loss) or (kactiv and k > kactiv and loss > loss_evo[-1]))`
  `        and self.final_estim is not None:`
  `    L_est, X_est = self.final_estim ...`
  `else : L_est, X_est = Lk, Xk`

Note that at this point `loss_evo[-1]` is the entry appended at line 747
of the final iteration — the final loss itself — not the previous one. -/
def engineReturn (st : EngSt) : ℕ :=
  if 1 < st.kFinal ∧
      (st.loss.isnanB = true ∨
        (st.kactiv ≠ 0 ∧ st.kactiv < st.kFinal ∧ PyVal.gt st.loss st.lossEvo.headI = true)) ∧
      st.finalEstim.isSome = true then
    st.finalEstim.getD st.lastIter
  else st.s

/-- The loss oracle of the concrete divergent run: initial loss 10, then
8 after the activation adjustment step, then 6, then 7 (an increase at
iteration 3, after the activation iteration 1). -/
def c2LossF : ℕ → PyVal := fun s => PyVal.num (([10, 8, 6, 7] : List ℚ).getD s 0)

/-- The gradient oracle of the concrete divergent run: gradients stay at
1, far above the tolerance 0, so no gtol break fires. -/
def c2GradF : ℕ → ℚ := fun _ => 1

/-- Claim C2: on the concrete run with `kactiv = 1`, `maxiter = 3`, `gtol = 0`
and losses 10, 8, 6, 7, the loss increases at iteration 3 (7 > 6, past the
activation iteration 1), so the engine snapshots the previous iterate
(step count 2) into `final_estim` — but the returned estimate is the last
raw iterate (step count 3), not the snapshot: the return-time guard
re-reads `loss_evo[-1]` after the final loss was appended, compares the
final loss with itself, and never selects the snapshot on this path. -/
theorem estimate_divergence_snapshot_not_returned :
    (runEngineState c2LossF c2GradF 1 0 3 0).finalEstim = some 2 ∧
      engineReturn (runEngineState c2LossF c2GradF 1 0 3 0) = 3 := by
  decide

/- ----------------------------------------------------------------- -/
/- C7 / C9 : the FFT rotation primitive                              -/
/- ----------------------------------------------------------------- -/

/-- Python float modulo for a positive modulus, `a % m = a - m*⌊a/m⌋`
(the semantics of `angle % 90` in `tensor_rotate_fft`). -/
def pymodQ (a m : ℚ) : ℚ := a - m * ⌊a / m⌋

/-- Model of `numpy.rint`: round to the nearest integer, ties to the
nearest even integer. -/
def rintQ (a : ℚ) : ℤ :=
  let f := ⌊a⌋
  let r := a - f
  if r < 1/2 then f
  else if 1/2 < r then f + 1
  else if f % 2 = 0 then f else f + 1

/-- The loop `while angle < 0: angle += 360` of `tensor_rotate_fft`
(`src/mustard/algo.py` lines 254-255), with a fuel bound large enough for
the loop to reach its exit condition. -/
def wrapUp : ℕ → ℚ → ℚ
  | 0, a => a
  | fuel + 1, a => if a < 0 then wrapUp fuel (a + 360) else a

/-- The loop `while angle > 360: angle -= 360` of `tensor_rotate_fft`
(`src/mustard/algo.py` lines 256-257), with a fuel bound large enough for
the loop to reach its exit condition. -/
def wrapDown : ℕ → ℚ → ℚ
  | 0, a => a
  | fuel + 1, a => if 360 < a then wrapDown fuel (a - 360) else a

/-- The two wrapping loops of `tensor_rotate_fft` in sequence.  The fuel
`⌈|a|/360⌉ + 2` dominates the number of iterations either loop can make
starting from `a`. -/
def pywrap360 (a : ℚ) : ℚ :=
  wrapDown ((⌈a / 360⌉).toNat + 2) (wrapUp ((⌈-a / 360⌉).toNat + 2) a)

/-- The angle-reduction step of `tensor_rotate_fft`
(`src/mustard/algo.py` lines 259-267):

  `if angle > 45:`
  `    dangle = angle % 90`
  `    if dangle > 45: dangle = -(90 - dangle)`
  `    nangle = int(np.rint(angle / 90))`
  `else: dangle = angle` (and no quarter-turn is applied, `nangle = 0`).

Returns `(nangle, dangle)`. -/
def angle_reduce (angle : ℚ) : ℤ × ℚ :=
  if 45 < angle then
    let d0 := pymodQ angle 90
    let d := if 45 < d0 then -(90 - d0) else d0
    (rintQ (angle / 90), d)
  else (0, angle)

/-- Claim C9: at the input angle 135 (inside `[0, 360]`) the reduction computes
`nangle = 2` — `np.rint(135/90) = np.rint(1.5)` rounds the tie to the even
integer 2 — while `dangle = 135 % 90 = 45` is not folded to `-45` because
the fold condition `dangle > 45` is strict.  The realized rotation is
`90*2 + 45 = 225`, which differs from the requested 135 by 90, so
`90*nangle + dangle` is not congruent to the input modulo 360 and the
rot90-plus-shears pipeline of `tensor_rotate_fft` rotates by the wrong
angle there (the same happens at 315). -/
theorem angle_reduce_135_breaks_decomposition :
    angle_reduce 135 = (2, 45) ∧
      ∀ m : ℤ, 90 * ((angle_reduce 135).1 : ℚ) + (angle_reduce 135).2 - 135 ≠ 360 * m := by
  have h : angle_reduce 135 = (2, 45) := by
    have hfloor : ⌊(135 : ℚ) / 90⌋ = 1 := by
      rw [Int.floor_eq_iff]
      norm_num
    simp only [angle_reduce, pymodQ, rintQ, hfloor]
    norm_num
  refine ⟨h, ?_⟩
  intro m hm
  rw [h] at hm
  norm_num at hm
  have h4 : (4 : ℚ) * (m : ℚ) = 1 := by linarith
  have h4z : (4 * m : ℤ) = 1 := by exact_mod_cast h4
  omega

/-- Real-valued frame embedded into the complex plane (the implicit cast
of a real tensor entering `torch.fft.fft`). -/
noncomputable def toC (F : ℕ → ℕ → ℝ) : ℕ → ℕ → ℂ := fun i j => ((F i j : ℝ) : ℂ)

/-- Model of `torch.fft.fft` along one axis (default backward norm: the
forward transform is unnormalized): the length-`n` discrete Fourier
transform of a sequence. -/
noncomputable def fft1 (n : ℕ) (x : ℕ → ℂ) : ℕ → ℂ :=
  fun k => ∑ j ∈ Finset.range n,
    x j * Complex.exp (-2 * (Real.pi : ℂ) * Complex.I * (j : ℂ) * (k : ℂ) / (n : ℂ))

/-- Model of `torch.fft.ifft` along one axis (backward norm: the inverse
transform carries the `1/n` factor). -/
noncomputable def ifft1 (n : ℕ) (x : ℕ → ℂ) : ℕ → ℂ :=
  fun j => (n : ℂ)⁻¹ * ∑ k ∈ Finset.range n,
    x k * Complex.exp (2 * (Real.pi : ℂ) * Complex.I * (j : ℂ) * (k : ℂ) / (n : ℂ))

/-- Index map of `torch.fft.fftshift` on one axis of length `n`:
`fftshift` is `roll(x, n // 2)`, so output index `i` reads input index
`(i - n/2) mod n = (i + (n - n/2)) mod n`. -/
def fftshiftIdx (n i : ℕ) : ℕ := (i + (n - n / 2)) % n

/-- `torch.fft.fftshift` with no `dim` argument on an `r × c` image:
every axis is shifted (the leading size-1 channel axis of the source
tensors is dropped throughout, shifting it is the identity). -/
noncomputable def fftshift2 (r c : ℕ) (x : ℕ → ℕ → ℂ) : ℕ → ℕ → ℂ :=
  fun i j => x (fftshiftIdx r i) (fftshiftIdx c j)

/-- `torch.fft.fft(·, dim=ax)` on an `r × c` image, where `ax = 2` is the
x (column) axis and any other value the y (row) axis of the `[1, y, x]`
source tensors. -/
noncomputable def fftAx (r c ax : ℕ) (x : ℕ → ℕ → ℂ) : ℕ → ℕ → ℂ :=
  if ax = 2 then fun i k => fft1 c (fun j => x i j) k
  else fun k j => fft1 r (fun i => x i j) k

/-- `torch.fft.ifft(·, dim=ax)` on an `r × c` image. -/
noncomputable def ifftAx (r c ax : ℕ) (x : ℕ → ℕ → ℂ) : ℕ → ℕ → ℂ :=
  if ax = 2 then fun i k => ifft1 c (fun j => x i j) k
  else fun k j => ifft1 r (fun i => x i j) k

/-- Model of `torch.fft.fftfreq n`: frequency `k/n` for `k ≤ (n-1)/2` and
`(k-n)/n` above. -/
def fftfreqQ (n k : ℕ) : ℚ :=
  if k ≤ (n - 1) / 2 then (k : ℚ) / n else ((k : ℚ) - n) / n

/-- The frequency grid `arr_u` built in `tensor_fft_shear`
(`src/mustard/algo.py` lines 298-303): `ax2 = 1 - (ax-1) % 2` selects
which extent of `arr_ori` feeds `fftfreq`; the shifted frequencies are
tiled along the other extent and transposed when `ax == 2`. -/
def shearArrU (r c ax : ℕ) : ℕ → ℕ → ℚ :=
  let ax2 := 1 - (ax - 1) % 2
  let len := if ax2 = 0 then r else c
  if ax = 2 then fun i _ => fftfreqQ len (fftshiftIdx len i)
  else fun _ j => fftfreqQ len (fftshiftIdx len j)

/-- The pointwise phase multiplication of `tensor_fft_shear`
(`src/mustard/algo.py` line 307):
`exp(-2j * pi * c * arr_u * arr_ori) * s_x`. -/
noncomputable def shearPhase (r c : ℕ) (arrOri : ℕ → ℕ → ℝ) (cc : ℝ) (ax : ℕ)
    (x : ℕ → ℕ → ℂ) : ℕ → ℕ → ℂ :=
  fun i j =>
    Complex.exp (-2 * (Real.pi : ℂ) * Complex.I * (cc : ℂ) *
      ((shearArrU r c ax i j : ℚ) : ℂ) * ((arrOri i j : ℝ) : ℂ)) * x i j

/-- Embedding of `tensor_fft_shear` (`src/mustard/algo.py` lines
297-312): fftshift, 1-D fft along `ax`, fftshift, phase multiplication,
fftshift, 1-D ifft along `ax`, fftshift. -/
noncomputable def tensor_fft_shear (r c : ℕ) (arr : ℕ → ℕ → ℂ) (arrOri : ℕ → ℕ → ℝ)
    (cc : ℝ) (ax : ℕ) : ℕ → ℕ → ℂ :=
  fftshift2 r c (ifftAx r c ax (fftshift2 r c
    (shearPhase r c arrOri cc ax (fftshift2 r c (fftAx r c ax (fftshift2 r c arr))))))

/-- One counterclockwise quarter turn of an `n × n` frame
(`np.rot90` / `torch.rot90` with `k = 1`): output row `i`, column `j`
reads input row `j`, column `n-1-i`. -/
def rot90once (n : ℕ) (F : ℕ → ℕ → ℝ) : ℕ → ℕ → ℝ :=
  fun i j => F j (n - 1 - i)

/-- `k`-fold quarter turn. -/
def rot90pow (n : ℕ) (F : ℕ → ℕ → ℝ) : ℕ → ℕ → ℕ → ℝ
  | 0 => F
  | k + 1 => rot90once n (rot90pow n F k)

/-- `torch.rot90(tensor, nangle, [1, 2])` for a possibly negative integer
count: reduce modulo 4 (four quarter turns are the identity on the index
grid). -/
def pyrot90 (n : ℕ) (F : ℕ → ℕ → ℝ) (k : ℤ) : ℕ → ℕ → ℝ :=
  rot90pow n F (k % 4).toNat

/-- The chain of three shears of `tensor_rotate_fft`
(`src/mustard/algo.py` lines 282-284) on an `m × m` working frame:
x-shear by `aa`, y-shear by `bb`, x-shear by `aa`, with the coordinate
grids `arr_x i j = j - cx` and `arr_y i j = i - cy` from
`np.mgrid - frame_center` (lines 276-280). -/
noncomputable def rotate_shears (m : ℕ) (tin : ℕ → ℕ → ℂ) (aa bb cy cx : ℝ) : ℕ → ℕ → ℂ :=
  tensor_fft_shear m m
    (tensor_fft_shear m m
      (tensor_fft_shear m m tin (fun _ j => (j : ℝ) - cx) aa 2)
      (fun i _ => (i : ℝ) - cy) bb 1)
    (fun _ j => (j : ℝ) - cx) aa 2

/-- Embedding of `tensor_rotate_fft` (`src/mustard/algo.py` lines
219-294) for a square `n × n` real frame:

* wrap the angle into range with the two `while` loops;
* reduce to a quarter-turn count and a residual `dangle` (`angle_reduce`),
  applying `rot90` only in the `angle > 45` branch;
* if `n` is odd, drop the last row and column (`tensor_in[:, :-1, :-1]`),
  so the shears work on `m = n - 1`; the shears below only ever read
  indices below `m`, which models the crop;
* shear with `a = tan(deg2rad(dangle)/2)` along x, `b = -sin(deg2rad(dangle))`
  along y, then `a` along x again, the grids centred at
  `frame_center(tensor[0]) = ((n-1)/2, (n-1)/2)` of the original frame
  (external `vip_hci.var.frame_center` convention);
* take the real part; in the odd case the result is written into an
  `n × n` array of zeros at `[:-1, :-1]`, leaving the last row and column
  zero. -/
noncomputable def tensor_rotate_fft (n : ℕ) (F : ℕ → ℕ → ℝ) (angle0 : ℚ) : ℕ → ℕ → ℝ :=
  let angle := pywrap360 angle0
  let nang := (angle_reduce angle).1
  let dang := (angle_reduce angle).2
  let tin : ℕ → ℕ → ℝ := if 45 < angle then pyrot90 n F nang else F
  let m := if n % 2 = 1 then n - 1 else n
  let s := rotate_shears m (toC tin)
    (Real.tan (Real.pi / 180 * ((dang : ℚ) : ℝ) / 2))
    (-Real.sin (Real.pi / 180 * ((dang : ℚ) : ℝ)))
    (((n : ℝ) - 1) / 2) (((n : ℝ) - 1) / 2)
  if n % 2 = 1 then fun i j => if i < m ∧ j < m then (s i j).re else 0
  else fun i j => (s i j).re

/-- An fftshifted index is below the axis length. -/
lemma fftshiftIdx_lt (n : ℕ) (hn : 0 < n) (i : ℕ) : fftshiftIdx n i < n :=
  Nat.mod_lt _ hn

/-- On an even-length axis, `fftshift` is an involution on in-range
indices. -/
lemma fftshiftIdx_invol (n : ℕ) (he : n % 2 = 0) (i : ℕ) (hi : i < n) :
    fftshiftIdx n (fftshiftIdx n i) = i := by
  have h2 : n / 2 * 2 = n := Nat.div_mul_cancel (Nat.dvd_of_mod_eq_zero he)
  have hsub : n - n / 2 = n / 2 := by omega
  unfold fftshiftIdx
  rw [hsub]
  rcases lt_or_ge i (n / 2) with hlt | hge
  · have e1 : (i + n / 2) % n = i + n / 2 := Nat.mod_eq_of_lt (by omega)
    rw [e1]
    have e2 : i + n / 2 + n / 2 = i + n := by omega
    rw [e2, Nat.add_mod_right]
    exact Nat.mod_eq_of_lt hi
  · have e1 : (i + n / 2) % n = i - n / 2 := by
      have e : i + n / 2 = (i - n / 2) + n := by omega
      rw [e, Nat.add_mod_right]
      exact Nat.mod_eq_of_lt (by omega)
    rw [e1]
    have e2 : i - n / 2 + n / 2 = i := by omega
    rw [e2]
    exact Nat.mod_eq_of_lt hi

/-- Unfolding lemma for `fftshift2`. -/
lemma fftshift2_apply (r c : ℕ) (x : ℕ → ℕ → ℂ) (i j : ℕ) :
    fftshift2 r c x i j = x (fftshiftIdx r i) (fftshiftIdx c j) := rfl

/-- Two applications of the all-axes `fftshift` cancel on an even-sized
square image at in-range indices. -/
lemma fftshift2_double (n : ℕ) (he : n % 2 = 0) (x : ℕ → ℕ → ℂ) (i j : ℕ)
    (hi : i < n) (hj : j < n) : fftshift2 n n (fftshift2 n n x) i j = x i j := by
  rw [fftshift2_apply, fftshift2_apply,
    fftshiftIdx_invol n he i hi, fftshiftIdx_invol n he j hj]

/-- Geometric-series orthogonality of the DFT characters: for an integer
frequency offset `d` with `0 < |d| < n`, the length-`n` character sum
vanishes. -/
lemma sum_exp_ne (n : ℕ) (hn : 0 < n) (d : ℤ) (hd1 : d ≠ 0) (hd2 : d.natAbs < n) :
    ∑ k ∈ Finset.range n,
      Complex.exp (2 * (Real.pi : ℂ) * Complex.I * (d : ℂ) * (k : ℂ) / (n : ℂ)) = 0 := by
  have hn0 : (n : ℂ) ≠ 0 := Nat.cast_ne_zero.mpr hn.ne'
  have hpi : (2 * (Real.pi : ℂ) * Complex.I) ≠ 0 := by
    intro hc
    rcases mul_eq_zero.mp hc with h1 | h2
    · rcases mul_eq_zero.mp h1 with h3 | h4
      · norm_num at h3
      · exact Real.pi_ne_zero (by exact_mod_cast h4)
    · exact Complex.I_ne_zero h2
  have hterm : ∀ k : ℕ,
      Complex.exp (2 * (Real.pi : ℂ) * Complex.I * (d : ℂ) * (k : ℂ) / (n : ℂ))
        = Complex.exp (2 * (Real.pi : ℂ) * Complex.I * (d : ℂ) / (n : ℂ)) ^ k := by
    intro k
    rw [← Complex.exp_nat_mul]
    congr 1
    ring
  rw [Finset.sum_congr rfl fun k _ => hterm k]
  have hw1 : Complex.exp (2 * (Real.pi : ℂ) * Complex.I * (d : ℂ) / (n : ℂ)) ≠ 1 := by
    intro hcontra
    rw [Complex.exp_eq_one_iff] at hcontra
    obtain ⟨m, hm⟩ := hcontra
    rw [div_eq_iff hn0] at hm
    have hd : (d : ℂ) = (m : ℂ) * (n : ℂ) := by
      apply mul_left_cancel₀ hpi
      rw [show 2 * (Real.pi : ℂ) * Complex.I * ((m : ℂ) * (n : ℂ))
            = (m : ℂ) * (2 * (Real.pi : ℂ) * Complex.I) * (n : ℂ) by ring]
      exact hm
    have hdz : d = m * (n : ℤ) := by exact_mod_cast hd
    rcases eq_or_ne m 0 with hm0 | hm0
    · subst hm0
      simp at hdz
      exact hd1 hdz
    · have habs : d.natAbs = m.natAbs * n := by
        rw [hdz, Int.natAbs_mul, Int.natAbs_ofNat]
      have hone : 1 ≤ m.natAbs := Int.natAbs_pos.mpr hm0
      have : n ≤ d.natAbs := by
        rw [habs]
        calc n = 1 * n := (one_mul n).symm
          _ ≤ m.natAbs * n := Nat.mul_le_mul_right n hone
      omega
  have hwn : Complex.exp (2 * (Real.pi : ℂ) * Complex.I * (d : ℂ) / (n : ℂ)) ^ n = 1 := by
    rw [← Complex.exp_nat_mul]
    have harg : (n : ℂ) * (2 * (Real.pi : ℂ) * Complex.I * (d : ℂ) / (n : ℂ))
        = (d : ℂ) * (2 * (Real.pi : ℂ) * Complex.I) := by
      field_simp
      ring
    rw [harg, Complex.exp_int_mul_two_pi_mul_I]
  rw [geom_sum_eq hw1, hwn]
  simp

/-- DFT inversion: `ifft1 n` is a left inverse of `fft1 n` at in-range
indices (the exact-arithmetic content of `torch.fft.ifft(torch.fft.fft x)
= x`). -/
theorem ifft1_fft1 (n : ℕ) (hn : 0 < n) (x : ℕ → ℂ) (j : ℕ) (hj : j < n) :
    ifft1 n (fft1 n x) j = x j := by
  have hn0 : (n : ℂ) ≠ 0 := Nat.cast_ne_zero.mpr hn.ne'
  unfold ifft1 fft1
  simp only [Finset.sum_mul]
  rw [Finset.sum_comm]
  have key : ∀ l ∈ Finset.range n,
      (∑ k ∈ Finset.range n,
        x l * Complex.exp (-2 * (Real.pi : ℂ) * Complex.I * (l : ℂ) * (k : ℂ) / (n : ℂ))
            * Complex.exp (2 * (Real.pi : ℂ) * Complex.I * (j : ℂ) * (k : ℂ) / (n : ℂ)))
        = if l = j then (n : ℂ) * x l else 0 := by
    intro l hl
    have hcomb : ∀ k : ℕ,
        x l * Complex.exp (-2 * (Real.pi : ℂ) * Complex.I * (l : ℂ) * (k : ℂ) / (n : ℂ))
            * Complex.exp (2 * (Real.pi : ℂ) * Complex.I * (j : ℂ) * (k : ℂ) / (n : ℂ))
          = x l * Complex.exp (2 * (Real.pi : ℂ) * Complex.I *
              (((j : ℤ) - (l : ℤ) : ℤ) : ℂ) * (k : ℂ) / (n : ℂ)) := by
      intro k
      rw [mul_assoc, ← Complex.exp_add]
      have harg : (-2 * (Real.pi : ℂ) * Complex.I * (l : ℂ) * (k : ℂ) / (n : ℂ))
            + (2 * (Real.pi : ℂ) * Complex.I * (j : ℂ) * (k : ℂ) / (n : ℂ))
          = 2 * (Real.pi : ℂ) * Complex.I * (((j : ℤ) - (l : ℤ) : ℤ) : ℂ) * (k : ℂ) / (n : ℂ) := by
        push_cast
        ring
      rw [harg]
    rw [Finset.sum_congr rfl fun k _ => hcomb k, ← Finset.mul_sum]
    by_cases hlj : l = j
    · subst hlj
      simp only [sub_self, Int.cast_zero, mul_zero, zero_mul, zero_div, Complex.exp_zero,
        Finset.sum_const, Finset.card_range, nsmul_eq_mul, mul_one, eq_self_iff_true, if_true]
      ring
    · have hlm : l < n := Finset.mem_range.mp hl
      have hd1 : ((j : ℤ) - (l : ℤ)) ≠ 0 := by
        intro hc
        apply hlj
        omega
      have hd2 : ((j : ℤ) - (l : ℤ)).natAbs < n := by omega
      rw [sum_exp_ne n hn _ hd1 hd2, mul_zero, if_neg hlj]
  rw [Finset.sum_congr rfl key,
    Finset.sum_ite_eq' (Finset.range n) j (fun l => (n : ℂ) * x l),
    if_pos (Finset.mem_range.mpr hj), ← mul_assoc, inv_mul_cancel₀ hn0, one_mul]

/-- `ifft1` only reads its input below the axis length. -/
lemma ifft1_congr (n : ℕ) (f g : ℕ → ℂ) (h : ∀ k < n, f k = g k) (j : ℕ) :
    ifft1 n f j = ifft1 n g j := by
  unfold ifft1
  congr 1
  exact Finset.sum_congr rfl fun k hk => by rw [h k (Finset.mem_range.mp hk)]

/-- A shear with coefficient `0` multiplies by `exp 0 = 1`: the phase
step of `tensor_fft_shear` is then the identity. -/
lemma shearPhase_zero (r c ax : ℕ) (ori : ℕ → ℕ → ℝ) (x : ℕ → ℕ → ℂ) :
    shearPhase r c ori 0 ax x = x := by
  funext i j
  simp [shearPhase]

/-- A `tensor_fft_shear` with coefficient `0` on an even-sized square
image is the identity at in-range indices: the two outer `fftshift`s
cancel, the two inner `fftshift`s cancel, and `ifft` inverts `fft`. -/
theorem tensor_fft_shear_zero (n : ℕ) (hn : 0 < n) (he : n % 2 = 0) (x : ℕ → ℕ → ℂ)
    (ori : ℕ → ℕ → ℝ) (ax : ℕ) (i j : ℕ) (hi : i < n) (hj : j < n) :
    tensor_fft_shear n n x ori 0 ax i j = x i j := by
  have hσ : ∀ p : ℕ, fftshiftIdx n p < n := fun p => fftshiftIdx_lt n hn p
  unfold tensor_fft_shear
  rw [shearPhase_zero]
  by_cases hax : ax = 2
  · subst hax
    show (ifftAx n n 2 (fftshift2 n n (fftshift2 n n (fftAx n n 2 (fftshift2 n n x)))))
        (fftshiftIdx n i) (fftshiftIdx n j) = x i j
    have hifft : (ifftAx n n 2 (fftshift2 n n (fftshift2 n n (fftAx n n 2 (fftshift2 n n x)))))
        (fftshiftIdx n i) (fftshiftIdx n j)
        = ifft1 n (fun k => (fftshift2 n n (fftshift2 n n (fftAx n n 2 (fftshift2 n n x))))
            (fftshiftIdx n i) k) (fftshiftIdx n j) := rfl
    rw [hifft]
    rw [ifft1_congr n _ (fun k => fftAx n n 2 (fftshift2 n n x) (fftshiftIdx n i) k)
      (fun k hk => fftshift2_double n he _ _ k (hσ i) hk)]
    rw [show (fun k => fftAx n n 2 (fftshift2 n n x) (fftshiftIdx n i) k)
          = fft1 n (fun q => fftshift2 n n x (fftshiftIdx n i) q) from rfl]
    rw [ifft1_fft1 n hn _ _ (hσ j)]
    rw [fftshift2_apply, fftshiftIdx_invol n he i hi, fftshiftIdx_invol n he j hj]
  · show (ifftAx n n ax (fftshift2 n n (fftshift2 n n (fftAx n n ax (fftshift2 n n x)))))
        (fftshiftIdx n i) (fftshiftIdx n j) = x i j
    have hifft : (ifftAx n n ax (fftshift2 n n (fftshift2 n n (fftAx n n ax (fftshift2 n n x)))))
        (fftshiftIdx n i) (fftshiftIdx n j)
        = ifft1 n (fun p => (fftshift2 n n (fftshift2 n n (fftAx n n ax (fftshift2 n n x))))
            p (fftshiftIdx n j)) (fftshiftIdx n i) := by
      simp only [ifftAx, if_neg hax]
    rw [hifft]
    rw [ifft1_congr n _ (fun p => fftAx n n ax (fftshift2 n n x) p (fftshiftIdx n j))
      (fun p hp => fftshift2_double n he _ _ _ hp (hσ j))]
    have hfft : (fun p => fftAx n n ax (fftshift2 n n x) p (fftshiftIdx n j))
        = fft1 n (fun q => fftshift2 n n x q (fftshiftIdx n j)) := by
      simp only [fftAx, if_neg hax]
    rw [hfft]
    rw [ifft1_fft1 n hn _ _ (hσ i)]
    rw [fftshift2_apply, fftshiftIdx_invol n he i hi, fftshiftIdx_invol n he j hj]

/-- The three-shear chain of `tensor_rotate_fft` with both shear
coefficients `0` is the identity on an even-sized working frame. -/
theorem rotate_shears_id (m : ℕ) (he : m % 2 = 0) (tin : ℕ → ℕ → ℂ) (cy cx : ℝ)
    (i j : ℕ) (hi : i < m) (hj : j < m) :
    rotate_shears m tin 0 0 cy cx i j = tin i j := by
  have hm : 0 < m := by omega
  unfold rotate_shears
  rw [tensor_fft_shear_zero m hm he _ _ 2 i j hi hj,
    tensor_fft_shear_zero m hm he _ _ 1 i j hi hj,
    tensor_fft_shear_zero m hm he _ _ 2 i j hi hj]

/-- Counterexample to C7 as stated: for the odd-dimension (3 × 3) all-ones
frame, rotating by angle 0 is not the identity — the pixel at the last row
and column comes back 0 instead of 1, because the odd-size path of
`tensor_rotate_fft` crops the last row/column before the shears and
restores them as zeros. -/
theorem tensor_rotate_fft_zero_cex :
    tensor_rotate_fft 3 (fun _ _ => (1 : ℝ)) 0 2 2 ≠ 1 := by
  have h : tensor_rotate_fft 3 (fun _ _ => (1 : ℝ)) 0 2 2 = 0 := by
    simp only [tensor_rotate_fft]
    norm_num
  rw [h]
  norm_num

/-- Claim C7 (amended): rotation by angle 0 with `tensor_rotate_fft` is the
exact identity on every even-dimension square frame; on an odd-dimension
frame it is the identity on all pixels except those in the last row or
last column, which are returned as exactly 0 (the crop-and-zero-fill of
the odd-size path).  Stated pointwise for all in-range pixels. -/
theorem tensor_rotate_fft_zero_rotation (n : ℕ) (hn : 0 < n) (F : ℕ → ℕ → ℝ)
    (i j : ℕ) (hi : i < n) (hj : j < n) :
    tensor_rotate_fft n F 0 i j =
      if n % 2 = 1 ∧ (i = n - 1 ∨ j = n - 1) then 0 else F i j := by
  have hwrap : pywrap360 0 = 0 := by
    simp [pywrap360, wrapUp, wrapDown]
  have hred : angle_reduce 0 = (0, 0) := by
    norm_num [angle_reduce]
  have hred2 : (angle_reduce (pywrap360 0)).2 = 0 := by rw [hwrap, hred]
  have h45 : ¬ (45 : ℚ) < pywrap360 0 := by rw [hwrap]; norm_num
  have htan : Real.tan (Real.pi / 180 * (0 : ℝ) / 2) = 0 := by
    norm_num
  have hsin : -Real.sin (Real.pi / 180 * (0 : ℝ)) = 0 := by
    norm_num
  rcases Nat.mod_two_eq_zero_or_one n with he | ho
  · have hne1 : ¬ n % 2 = 1 := by omega
    simp only [tensor_rotate_fft, hred2, if_neg h45, hne1, if_false, false_and,
      Rat.cast_zero, htan, hsin, eq_self_iff_true]
    rw [rotate_shears_id n he (toC F) _ _ i j hi hj]
    simp [toC]
  · have hm2 : (n - 1) % 2 = 0 := by omega
    simp only [tensor_rotate_fft, hred2, if_neg h45, ho, if_true, eq_self_iff_true,
      true_and, Rat.cast_zero, htan, hsin]
    by_cases hij : i < n - 1 ∧ j < n - 1
    · rw [if_pos hij]
      have hnotlast : ¬ (i = n - 1 ∨ j = n - 1) := by omega
      rw [if_neg hnotlast]
      rw [rotate_shears_id (n - 1) hm2 (toC F) _ _ i j hij.1 hij.2]
      simp [toC]
    · rw [if_neg hij]
      have hlast : i = n - 1 ∨ j = n - 1 := by omega
      rw [if_pos hlast]

/-- Witness for the amended C7 theorem: the even 2 × 2 constant frame at
pixel (0, 1) is returned unchanged by a zero-angle rotation. -/
theorem tensor_rotate_fft_zero_rotation_witness :
    (0 < 2) ∧ tensor_rotate_fft 2 (fun _ _ => (5 : ℝ)) 0 0 1 =
      (if 2 % 2 = 1 ∧ ((0 : ℕ) = 2 - 1 ∨ (1 : ℕ) = 2 - 1) then 0 else (5 : ℝ)) :=
  ⟨by decide,
    tensor_rotate_fft_zero_rotation 2 (by decide) (fun _ _ => (5 : ℝ)) 0 1 (by decide) (by decide)⟩
